import Mathlib

/-!
Verification of the resumable, rate-limited batch-evaluation runner of the
`hsent_kbli` gold-label-curation pipeline: a shallow embedding of
`src/api/gemini_client.py`, `src/utils/json_parser.py` and
`src/pipeline/pilot_runner.py`, together with theorems settling the
specification claims about them.
-/

namespace HsentKbli

/-- JSON values as they occur in this pipeline's ledger records and parsed
payloads: scalars plus arrays of strings (the only array-valued field in a
record is `alternative_codes`, a list of code strings).  Numbers are embedded
as integers: every numeric field the claims touch (run indices, row indices,
the `-1` defaults) is integral, and the wall-clock measurements are opaque
stand-ins here. -/
inductive JsonVal where
  | null
  | bool (b : Bool)
  | num (n : ℤ)
  | str (s : String)
  | strList (xs : List String)
deriving DecidableEq, Repr

/-- A Python dict with JSON values, embedded as an association list in which
the first binding of a key wins (later rebindings shadow nothing). -/
abbrev Dict := List (String × JsonVal)

/-- First-match lookup, the embedding of Python `d[k]` / `d.get(k)`. -/
def dget : Dict → String → Option JsonVal
  | [], _ => none
  | (k, v) :: rest, key => if k = key then some v else dget rest key

/-- Python `d.get(k, default)`. -/
def dgetD (d : Dict) (key : String) (default : JsonVal) : JsonVal :=
  (dget d key).getD default

/-- Left-biased choice on optional values. -/
def optOr (a b : Option JsonVal) : Option JsonVal :=
  match a with
  | some v => some v
  | none => b

/-- Python `{**a, **b}`: the merged dict in which `b`'s bindings take
precedence on key collisions.  Encoded by putting `b`'s bindings first, so
first-match lookup realises the override. -/
def dictMerge (a b : Dict) : Dict := b ++ a

/-- Python truthiness of a JSON value (`if result.get('success', False):`). -/
def isTruthy : JsonVal → Bool
  | .null => false
  | .bool b => b
  | .num q => q ≠ 0
  | .str s => s ≠ ""
  | .strList xs => xs ≠ []

/-- Python set `add`: append the element only when it is not yet present. -/
def insertIfAbsent (s : List (JsonVal × JsonVal)) (x : JsonVal × JsonVal) :
    List (JsonVal × JsonVal) :=
  if x ∈ s then s else s ++ [x]

/-- Whether `pat` is a prefix of `s`, on character lists. -/
def charsPrefix : List Char → List Char → Bool
  | [], _ => true
  | _ :: _, [] => false
  | a :: as, b :: bs => a == b && charsPrefix as bs

/-- Whether `pat` occurs as a contiguous substring of `s`, on character
lists: the embedding of Python's `pat in s`. -/
def charsInfix (pat : List Char) : List Char → Bool
  | [] => charsPrefix pat []
  | c :: rest => charsPrefix pat (c :: rest) || charsInfix pat rest

/-- Python `pat in s` on strings. -/
def strContainsSub (s pat : String) : Bool := charsInfix pat.data s.data

/-- Python `s.lower()`. -/
def strLower (s : String) : String := ⟨s.data.map Char.toLower⟩

/-! ## The Gemini client (`src/api/gemini_client.py`) -/

/-- The `AVAILABLE_MODELS` table: model name, `rpm` limit, description. -/
def AVAILABLE_MODELS : List (String × Nat × String) :=
  [("models/gemini-1.5-flash-latest", 15, "Gemini 1.5 Flash (Latest)"),
   ("models/gemini-1.5-pro-latest", 2, "Gemini 1.5 Pro (Latest)"),
   ("models/gemini-2.5-flash-lite", 15, "Gemini 2.5 Flash Lite")]

/-- Python `AVAILABLE_MODELS.get(model_name)`: the registry entry, if any. -/
def lookupModel (modelName : String) : Option (Nat × String) :=
  match AVAILABLE_MODELS.find? (fun e => e.1 = modelName) with
  | some e => some e.2
  | none => none

/-- Python `AVAILABLE_MODELS.get(model_name, {}).get("rpm", 15)`. -/
def lookupRpm (modelName : String) : Nat :=
  match lookupModel modelName with
  | some e => e.1
  | none => 15

def DEFAULT_MAX_RETRIES : Nat := 3

/-- `DEFAULT_RETRY_DELAY = 2` seconds, the base of the linear backoff. -/
def DEFAULT_RETRY_DELAY : ℚ := 2

/-- `GeminiClient.get_rate_limit_delay`: `(60.0 / rpm) * 1.1` seconds, with
the registry lookup defaulting to `rpm = 15` for unknown models. -/
def get_rate_limit_delay (modelName : String) : ℚ :=
  (60 / (lookupRpm modelName : ℚ)) * (11 / 10)

/-- The text suffix after the first occurrence of `pat`, if `pat` occurs. -/
def chAfterFirst (pat : List Char) : List Char → Option (List Char)
  | [] => if charsPrefix pat [] then some [] else none
  | c :: rest =>
      if charsPrefix pat (c :: rest) then some (List.drop pat.length (c :: rest))
      else chAfterFirst pat rest

/-- Digits to a natural number, most significant first. -/
def digitsToNat (ds : List Char) : Nat :=
  ds.foldl (fun acc c => acc * 10 + (c.toNat - 48)) 0

/-- Model of `re.search(r'retry_delay.*?seconds: (\d+)', error_str)`: after
the first `retry_delay` and the next `seconds: `, read the digit run. -/
def parseRetryDelay (s : String) : Option Nat :=
  match chAfterFirst "retry_delay".data s.data with
  | none => none
  | some rest =>
    match chAfterFirst "seconds: ".data rest with
    | none => none
    | some rest2 =>
      let digits := rest2.takeWhile Char.isDigit
      if digits.isEmpty then none else some (digitsToNat digits)

/-- The executor's rate-limit classification of an error message:
`"ResourceExhausted" in error_str or "429" in error_str`. -/
def isRateLimitMsg (msg : String) : Bool :=
  strContainsSub msg "ResourceExhausted" || strContainsSub msg "429"

/-- The response text of one remote attempt, abstracted to what the pipeline
observes of it: empty text; text from which `extract_json_from_response`
recovers a JSON object (its payload); nonempty text holding no JSON object;
or text whose located JSON span fails to parse. -/
inductive ResponseText where
  | emptyText
  | withJson (payload : Dict)
  | noJson (snippet : String)
  | badJson (snippet : String)
deriving DecidableEq, Repr

/-- One attempt of `model.generate_content`: either a response (with its
text) or a raised exception, given by its Python type name and message. -/
inductive AttemptOutcome where
  | response (t : ResponseText)
  | raises (etype msg : String)

/-- How `GeminiClient.generate_content` finishes: return a text, propagate
an exception, or fall off the end of the retry loop returning Python
`None`. -/
inductive GenResult where
  | ok (t : ResponseText)
  | exn (etype msg : String)
  | noneReturn
deriving Repr

/-- Observable side effects of the executor: issuing one remote request, or
sleeping for a number of seconds. -/
inductive Event where
  | remoteCall
  | sleep (seconds : ℚ)

/-- How many remote requests a trace contains. -/
def countRemoteCalls (evs : List Event) : Nat :=
  (evs.filter (fun e => match e with | .remoteCall => true | _ => false)).length

/-- How many sleeps a trace contains. -/
def countSleeps (evs : List Event) : Nat :=
  (evs.filter (fun e => match e with | .sleep _ => true | _ => false)).length

/-- The error handling of one failed attempt inside the retry loop of
`generate_content`: rate-limit-class messages sleep (the server-suggested
delay if the message carries one, else the governor delay) and always
continue; other errors back off linearly and continue unless this was the
final attempt, which re-raises. -/
def genAttemptErr (modelName : String) (maxRetries attempt : Nat) (etype msg : String)
    (recurse : Unit → GenResult × List Event) : GenResult × List Event :=
  if isRateLimitMsg msg then
    let d : ℚ :=
      match parseRetryDelay msg with
      | some n => (n : ℚ)
      | none => get_rate_limit_delay modelName
    let r := recurse ()
    (r.1, Event.remoteCall :: Event.sleep d :: r.2)
  else if attempt < maxRetries - 1 then
    let r := recurse ()
    (r.1, Event.remoteCall :: Event.sleep (DEFAULT_RETRY_DELAY * (attempt + 1)) :: r.2)
  else
    (.exn etype msg, [Event.remoteCall])

/-- The retry loop of `generate_content`: `for attempt in range(max_retries)`,
driven by an oracle giving each attempt's outcome.  `fuel` is the number of
loop iterations left (`max_retries - attempt`); when it runs out the loop
ends and the Python function implicitly returns `None`.  An empty response
text raises `ValueError("Empty response from API")` inside the `try`, which
the same iteration's `except` then handles. -/
def genLoop (modelName : String) (maxRetries : Nat) (oracle : Nat → AttemptOutcome) :
    Nat → Nat → GenResult × List Event
  | _, 0 => (.noneReturn, [])
  | attempt, fuel + 1 =>
    match oracle attempt with
    | .response .emptyText =>
        genAttemptErr modelName maxRetries attempt "ValueError" "Empty response from API"
          (fun _ => genLoop modelName maxRetries oracle (attempt + 1) fuel)
    | .response t => (.ok t, [Event.remoteCall])
    | .raises etype msg =>
        genAttemptErr modelName maxRetries attempt etype msg
          (fun _ => genLoop modelName maxRetries oracle (attempt + 1) fuel)

/-- `GeminiClient.generate_content`: raise `ValueError` for a model missing
from the registry before any request is issued, else run the retry loop. -/
def generate_content (modelName : String) (maxRetries : Nat)
    (oracle : Nat → AttemptOutcome) : GenResult × List Event :=
  if (lookupModel modelName).isNone then
    (.exn "ValueError"
      (String.append (String.append "Model " modelName)
        " not available. Use get_available_models() to see options."), [])
  else
    genLoop modelName maxRetries oracle 0 maxRetries

/-! ## JSON utilities (`src/utils/json_parser.py`) -/

/-- A Python exception as the orchestrator observes it: its type name
(`type(e).__name__`) and its message (`str(e)`). -/
structure PyExn where
  etype : String
  msg : String
deriving DecidableEq, Repr

/-- `extract_json_from_response` on the response the executor handed back.
`none` is Python `None` (the executor fell off its retry loop): the regex
search raises `TypeError` at once.  On a string, the function either
recovers the JSON object of the text or raises `ValueError` — no JSON
found, or a located span that does not parse. -/
def extract_json_from_response : Option ResponseText → Except PyExn Dict
  | none => .error ⟨"TypeError", "expected string or bytes-like object, got NoneType"⟩
  | some .emptyText => .error ⟨"ValueError", "No JSON found in response: ..."⟩
  | some (.withJson payload) => .ok payload
  | some (.noJson snippet) =>
      .error ⟨"ValueError", String.append "No JSON found in response: " snippet⟩
  | some (.badJson snippet) =>
      .error ⟨"ValueError", String.append "Invalid JSON format: " snippet⟩

/-- One line of the ledger file as the loader sees it: blank after
stripping, a line that fails `json.loads`, or a parsed record. -/
inductive Line where
  | blank
  | junk (s : String)
  | record (d : Dict)
deriving DecidableEq, Repr

/-- The completion key of a parsed record:
`(result.get('sample_id', -1), result.get('run_number', -1))`. -/
def recordKey (d : Dict) : JsonVal × JsonVal :=
  (dgetD d "sample_id" (.num (-1)), dgetD d "run_number" (.num (-1)))

/-- Whether the loader counts a record as completed:
`result.get('success', False)` is truthy. -/
def recordSuccess (d : Dict) : Bool :=
  isTruthy (dgetD d "success" (.bool false))

/-- One line of the loader's scan: blank lines and lines that fail to
parse are skipped (the latter with a warning), parsed records accumulate
in order, and the key of each record whose success flag is truthy joins
the completed set. -/
def loadStep (acc : List Dict × List (JsonVal × JsonVal)) (line : Line) :
    List Dict × List (JsonVal × JsonVal) :=
  match line with
  | .blank => acc
  | .junk _ => acc
  | .record d =>
      (acc.1 ++ [d],
       if recordSuccess d then insertIfAbsent acc.2 (recordKey d) else acc.2)

/-- `load_existing_results`: a missing file yields the empty list and the
empty completed set; otherwise the lines are scanned in order with
`loadStep`. -/
def load_existing_results (file : Option (List Line)) :
    List Dict × List (JsonVal × JsonVal) :=
  match file with
  | none => ([], [])
  | some lines => lines.foldl loadStep ([], [])

/-! ## The pilot runner (`src/pipeline/pilot_runner.py`) -/

/-- One dataset row as the runner reads it: the fields accessed by
`run_pilot_study`, `add_metadata_to_result` and `create_error_record`.
Optional fields model `sample.get(...)` with its defaults; `rowIndex` is
`getattr(sample, 'name', 0)`, the pandas row label. -/
structure Sample where
  sample_id : Option String
  rowIndex : ℤ
  text : String
  kbli_code : String
  category : Option String
  dataset_name : Option String
  id_created_at : Option String
deriving DecidableEq, Repr

/-- One row of the hierarchical codebook: codes and titles of the five
levels plus the optional level-5 description. -/
structure CodebookRow where
  code_1 : String
  title_1 : String
  code_2 : String
  title_2 : String
  code_3 : String
  title_3 : String
  code_4 : String
  title_4 : String
  code_5 : String
  title_5 : String
  desc_5 : Option String
deriving DecidableEq, Repr

/-- `PilotRunner.format_hierarchy`: the five hierarchy lines, plus the
description line when `desc_5` is present and nonblank. -/
def format_hierarchy (row : CodebookRow) : String :=
  let hierarchyLines :=
    [String.append (String.append (String.append "- Section " row.code_1) ": ") row.title_1,
     String.append (String.append (String.append "- Division " row.code_2) ": ") row.title_2,
     String.append (String.append (String.append "- Group " row.code_3) ": ") row.title_3,
     String.append (String.append (String.append "- Class " row.code_4) ": ") row.title_4,
     String.append (String.append (String.append "- Sub-Class " row.code_5) ": ") row.title_5]
  let hierarchyLines :=
    match row.desc_5 with
    | some d => if d.data.any (fun c => ¬ c.isWhitespace) then
        hierarchyLines ++ [String.append "- Description: " d]
      else hierarchyLines
    | none => hierarchyLines
  String.intercalate "\n" hierarchyLines

/-- Replace every non-overlapping occurrence of `pat` in the text,
left to right: the embedding of Python `str.replace` for nonempty `pat`. -/
def chReplace (pat rep : List Char) : List Char → List Char
  | [] => []
  | c :: rest =>
      if pat ≠ [] ∧ charsPrefix pat (c :: rest) then
        rep ++ chReplace pat rep (List.drop (pat.length - 1) rest)
      else
        c :: chReplace pat rep rest
termination_by s => s.length
decreasing_by
  · simp [List.length_drop]; omega
  · simp

/-- Python `s.replace(pat, rep)` on strings. -/
def strReplace (s pat rep : String) : String :=
  ⟨chReplace pat.data rep.data s.data⟩

/-- `PilotRunner.build_prompt_for_sample`: find the codebook rows whose
`code_5` equals the sample's code; if none, return `None` (the sample is
skipped); else render the hierarchy of the first such row and substitute
the three placeholders of the template. -/
def build_prompt_for_sample (template : String) (sample : Sample)
    (codebook : List CodebookRow) : Option String :=
  let codeToCheck := sample.kbli_code
  let ruleRows := codebook.filter (fun r => r.code_5 = codeToCheck)
  match ruleRows with
  | [] => none
  | ruleRow :: _ =>
      let hierarchyContext := format_hierarchy ruleRow
      let finalPrompt := strReplace template "\x7bjob_description\x7d" sample.text
      let finalPrompt := strReplace finalPrompt "\x7bcode_to_check\x7d" codeToCheck
      let finalPrompt := strReplace finalPrompt "\x7bhierarchy_context\x7d" hierarchyContext
      some finalPrompt

/-- The `sample_id` default of the record builders:
`sample.get('sample_id', f"row_{getattr(sample, 'name', 0)}")`. -/
def metaSampleId (sample : Sample) : String :=
  sample.sample_id.getD (String.append "row_" (toString sample.rowIndex))

/-- The metadata dict built inside `add_metadata_to_result`, including the
trailing `sample_id_created_at` binding when the sample carries one.  The
timestamp and the measured processing time are the opaque stand-ins `ts`
and `procTime` for the wall-clock reads of the source. -/
def metadataOf (sample : Sample) (runNumber : Nat) (modelName : String)
    (procTime : ℤ) (ts : String) : Dict :=
  [("sample_id", .str (metaSampleId sample)),
   ("original_row_index", .num sample.rowIndex),
   ("original_text", .str sample.text),
   ("assigned_kbli_code", .str sample.kbli_code),
   ("category", .str (sample.category.getD "N/A")),
   ("run_number", .num runNumber),
   ("model_name", .str modelName),
   ("dataset_name", .str (sample.dataset_name.getD "unknown.csv")),
   ("timestamp", .str ts),
   ("processing_time_seconds", .num procTime),
   ("success", .bool true)] ++
  (match sample.id_created_at with
   | some c => [("sample_id_created_at", JsonVal.str c)]
   | none => [])

/-- `PilotRunner.add_metadata_to_result`: `{**metadata, **result}` — the
parsed payload merged over the metadata, payload keys winning. -/
def add_metadata_to_result (result : Dict) (sample : Sample) (runNumber : Nat)
    (modelName : String) (procTime : ℤ) (ts : String) : Dict :=
  dictMerge (metadataOf sample runNumber modelName procTime ts) result

/-- `PilotRunner.create_error_record`: the failure record — the metadata
fields (without a processing time), `success=False`, the exception's type
name and message, and the payload fields explicitly null/empty. -/
def create_error_record (sample : Sample) (error : PyExn) (runNumber : Nat)
    (modelName : String) (ts : String) : Dict :=
  [("sample_id", .str (metaSampleId sample)),
   ("original_row_index", .num sample.rowIndex),
   ("original_text", .str sample.text),
   ("assigned_kbli_code", .str sample.kbli_code),
   ("category", .str (sample.category.getD "N/A")),
   ("run_number", .num runNumber),
   ("model_name", .str modelName),
   ("dataset_name", .str (sample.dataset_name.getD "unknown.csv")),
   ("timestamp", .str ts),
   ("success", .bool false),
   ("error_type", .str error.etype),
   ("error_message", .str error.msg),
   ("is_correct", .null),
   ("confidence_score", .null),
   ("reasoning", .null),
   ("alternative_codes", .strList []),
   ("alternative_reasoning", .null)] ++
  (match sample.id_created_at with
   | some c => [("sample_id_created_at", JsonVal.str c)]
   | none => [])

/-! ## The batch orchestrator (`PilotRunner.run_pilot_study`) -/

/-- The orchestrator's quota classification of a caught exception:
`"ResourceExhausted" in str(e) or "429" in str(e) or "quota" in str(e).lower()`. -/
def isQuotaExn (e : PyExn) : Bool :=
  strContainsSub e.msg "ResourceExhausted" || strContainsSub e.msg "429" ||
    strContainsSub (strLower e.msg) "quota"

/-- The `sample_id` the orchestrator loop uses:
`sample.get('sample_id', f"row_{idx}")` with `idx` the enumeration index —
note the default differs from the one in the record builders, which uses
the row label instead of the enumeration index. -/
def loopSampleId (sample : Sample) (idx : Nat) : String :=
  sample.sample_id.getD (String.append "row_" (toString idx))

/-- The configuration of one `run_pilot_study` invocation, together with
the opaque stand-ins `ts` and `procTime` for the wall-clock reads. -/
structure RunConfig where
  modelName : String
  nRuns : Nat
  maxRetries : Nat
  template : String
  codebook : List CodebookRow
  ts : String
  procTime : ℤ

/-- The mutable state of the orchestrator loop, instrumented with the
observable trace: `calls` records each executor invocation as
`(sample index, run number)`, `remoteCallCount` totals the attempt-level
remote requests of the executor traces, and `appended` tags each ledger
append that succeeded with the sample index it came from. -/
structure OState where
  completedRuns : List (JsonVal × JsonVal)
  appended : List (Nat × Dict)
  saveAttempts : Nat
  newResultsCount : Nat
  processedSamples : Nat
  calls : List (Nat × Nat)
  remoteCallCount : Nat
  resourceExhausted : Bool
deriving Repr

/-- The records of the final ledger file: the parsed historical records
followed by the records appended during this invocation. -/
def OState.appendedRecords (st : OState) : List Dict :=
  st.appended.map Prod.snd

/-- One executor invocation as the orchestrator sees it:
`generate_content` followed by `extract_json_from_response`, either of
which may raise; a `None` fall-through of the executor reaches the JSON
extractor as Python `None`. -/
def executorStep (cfg : RunConfig) (oracle : Nat → AttemptOutcome) :
    Except PyExn Dict × List Event :=
  let g := generate_content cfg.modelName cfg.maxRetries oracle
  (match g.1 with
   | .ok t => extract_json_from_response (some t)
   | .noneReturn => extract_json_from_response none
   | .exn etype msg => .error ⟨etype, msg⟩,
   g.2)

/-- The body of the inner `for run_num in remaining_runs` loop: skip when
the breaker has tripped; otherwise invoke the executor and either merge and
append the success record (marking the run complete only when the append
reports success), trip the breaker on a quota-class exception (appending
nothing), or append an error record (the run stays outstanding). -/
def processRun (cfg : RunConfig) (oracle : Nat → Nat → Nat → AttemptOutcome)
    (saveOracle : Nat → Bool) (sample : Sample) (idx : Nat) (runNum : Nat)
    (st : OState) : OState :=
  if st.resourceExhausted then st
  else
    let res := executorStep cfg (oracle idx runNum)
    let st := { st with
      calls := st.calls ++ [(idx, runNum)],
      remoteCallCount := st.remoteCallCount + countRemoteCalls res.2 }
    match res.1 with
    | .ok payload =>
        let fullResult :=
          add_metadata_to_result payload sample runNum cfg.modelName cfg.procTime cfg.ts
        let saveOk := saveOracle st.saveAttempts
        let st := { st with saveAttempts := st.saveAttempts + 1 }
        if saveOk then
          { st with
            appended := st.appended ++ [(idx, fullResult)],
            completedRuns :=
              insertIfAbsent st.completedRuns
                (.str (loopSampleId sample idx), .num runNum),
            newResultsCount := st.newResultsCount + 1 }
        else st
    | .error e =>
        if isQuotaExn e then { st with resourceExhausted := true }
        else
          let errorRecord := create_error_record sample e runNum cfg.modelName cfg.ts
          let saveOk := saveOracle st.saveAttempts
          let st := { st with saveAttempts := st.saveAttempts + 1 }
          if saveOk then
            { st with
              appended := st.appended ++ [(idx, errorRecord)],
              newResultsCount := st.newResultsCount + 1 }
          else st

/-- The run numbers already completed for this sample:
`{run_num for (sid, run_num) in completed_runs if sid == sample_id}`. -/
def sampleCompletedRuns (completedRuns : List (JsonVal × JsonVal))
    (sampleId : String) : List JsonVal :=
  completedRuns.filterMap (fun p => if p.1 = .str sampleId then some p.2 else none)

/-- The outstanding run numbers of a sample:
`[run_num for run_num in range(1, n_runs + 1) if run_num not in sample_completed_runs]`. -/
def remainingRuns (completedRuns : List (JsonVal × JsonVal)) (sampleId : String)
    (nRuns : Nat) : List Nat :=
  (List.range' 1 nRuns).filter
    (fun runNum => ¬ (JsonVal.num runNum) ∈ sampleCompletedRuns completedRuns sampleId)

/-- The body of the outer `for idx, (_, sample) in enumerate(...)` loop.
After the breaker has tripped, the source breaks out of the loop, so later
samples leave the state untouched.  A sample whose code has no codebook
match is skipped (`continue`) without counting as processed; a sample with
no remaining runs counts as processed without any executor call; otherwise
the remaining runs are processed in ascending order and the sample then
counts as processed. -/
def processSample (cfg : RunConfig) (oracle : Nat → Nat → Nat → AttemptOutcome)
    (saveOracle : Nat → Bool) (st : OState) (entry : Nat × Sample) : OState :=
  if st.resourceExhausted then st
  else
    match build_prompt_for_sample cfg.template entry.2 cfg.codebook with
    | none => st
    | some _ =>
        if remainingRuns st.completedRuns (loopSampleId entry.2 entry.1) cfg.nRuns = [] then
          { st with processedSamples := st.processedSamples + 1 }
        else
          let st1 :=
            (remainingRuns st.completedRuns (loopSampleId entry.2 entry.1) cfg.nRuns).foldl
              (fun s runNum => processRun cfg oracle saveOracle entry.2 entry.1 runNum s) st
          { st1 with processedSamples := st1.processedSamples + 1 }

/-- The outcome of one `run_pilot_study` invocation: whether the
all-complete early return fired, the expected-runs denominator
`total_samples * n_runs`, the historical records, and the final loop
state. -/
structure RunResult where
  earlyExit : Bool
  totalExpectedRuns : Nat
  existingResults : List Dict
  finalState : OState

/-- The initial loop state, holding the completion set reconstructed from
the ledger. -/
def initState (completedRuns : List (JsonVal × JsonVal)) : OState :=
  { completedRuns := completedRuns, appended := [], saveAttempts := 0,
    newResultsCount := 0, processedSamples := 0, calls := [],
    remoteCallCount := 0, resourceExhausted := false }

/-- `PilotRunner.run_pilot_study`, from loading the existing results on:
reconstruct the completion set, return at once when
`len(completed_runs) == total_expected_runs`, else run the sample loop.
The remote service is the oracle `(sample index, run number, attempt) →
outcome`; `saveOracle` says whether the n-th ledger append succeeds. -/
def run_pilot_study (cfg : RunConfig) (samples : List Sample)
    (file : Option (List Line)) (oracle : Nat → Nat → Nat → AttemptOutcome)
    (saveOracle : Nat → Bool) : RunResult :=
  let loaded := load_existing_results file
  let existingResults := loaded.1
  let completedRuns := loaded.2
  let totalSamples := samples.length
  let totalExpectedRuns := totalSamples * cfg.nRuns
  if completedRuns.length = totalExpectedRuns then
    { earlyExit := true, totalExpectedRuns := totalExpectedRuns,
      existingResults := existingResults, finalState := initState completedRuns }
  else
    { earlyExit := false, totalExpectedRuns := totalExpectedRuns,
      existingResults := existingResults,
      finalState :=
        samples.enum.foldl (processSample cfg oracle saveOracle)
          (initState completedRuns) }

/-! ## Basic lemmas about dicts, sets and the loader -/

theorem dget_append (a b : Dict) (k : String) :
    dget (a ++ b) k = optOr (dget a k) (dget b k) := by
  induction a with
  | nil => simp [dget, optOr]
  | cons kv rest ih =>
      obtain ⟨k0, v0⟩ := kv
      by_cases h : k0 = k <;> simp [dget, h, ih, optOr]

theorem dget_dictMerge (a b : Dict) (k : String) :
    dget (dictMerge a b) k = optOr (dget b k) (dget a k) := by
  unfold dictMerge
  exact dget_append b a k

theorem mem_insertIfAbsent (s : List (JsonVal × JsonVal)) (x y : JsonVal × JsonVal) :
    y ∈ insertIfAbsent s x ↔ y ∈ s ∨ y = x := by
  unfold insertIfAbsent
  by_cases h : x ∈ s <;> simp [h]
  exact fun e => e ▸ h

theorem mem_loadFold_records (lines : List Line)
    (acc : List Dict × List (JsonVal × JsonVal)) (d : Dict) :
    d ∈ (lines.foldl loadStep acc).1 ↔ d ∈ acc.1 ∨ Line.record d ∈ lines := by
  induction lines generalizing acc with
  | nil => simp
  | cons l rest ih =>
      cases l with
      | blank => simp [loadStep, ih]
      | junk s => simp [loadStep, ih]
      | record d0 =>
          simp only [List.foldl_cons, loadStep, ih, List.mem_append,
            List.mem_singleton, List.mem_cons, Line.record.injEq]
          tauto

theorem mem_loadFold_completed (lines : List Line)
    (acc : List Dict × List (JsonVal × JsonVal)) (p : JsonVal × JsonVal) :
    p ∈ (lines.foldl loadStep acc).2 ↔
      p ∈ acc.2 ∨ ∃ d, Line.record d ∈ lines ∧ recordSuccess d = true ∧ recordKey d = p := by
  induction lines generalizing acc with
  | nil => simp
  | cons l rest ih =>
      cases l with
      | blank => simp [loadStep, ih]
      | junk s => simp [loadStep, ih]
      | record d0 =>
          by_cases hs : recordSuccess d0 <;>
            simp only [List.foldl_cons, loadStep, hs, if_true, if_false, ih,
              mem_insertIfAbsent, List.mem_cons, Line.record.injEq] <;>
            constructor
          · rintro ((hp | rfl) | ⟨d, hd, hsd, hkd⟩)
            · exact Or.inl hp
            · exact Or.inr ⟨d0, Or.inl rfl, hs, rfl⟩
            · exact Or.inr ⟨d, Or.inr hd, hsd, hkd⟩
          · rintro (hp | ⟨d, (rfl | hd), hsd, hkd⟩)
            · exact Or.inl (Or.inl hp)
            · exact Or.inl (Or.inr hkd.symm)
            · exact Or.inr ⟨d, hd, hsd, hkd⟩
          · rintro (hp | ⟨d, hd, hsd, hkd⟩)
            · exact Or.inl hp
            · exact Or.inr ⟨d, Or.inr hd, hsd, hkd⟩
          · rintro (hp | ⟨d, (rfl | hd), hsd, hkd⟩)
            · exact Or.inl hp
            · exact absurd hsd (by simpa using hs)
            · exact Or.inr ⟨d, hd, hsd, hkd⟩

theorem mem_load_records (lines : List Line) (d : Dict) :
    d ∈ (load_existing_results (some lines)).1 ↔ Line.record d ∈ lines := by
  unfold load_existing_results
  rw [mem_loadFold_records]
  simp

theorem mem_load_completed (lines : List Line) (p : JsonVal × JsonVal) :
    p ∈ (load_existing_results (some lines)).2 ↔
      ∃ d, Line.record d ∈ lines ∧ recordSuccess d = true ∧ recordKey d = p := by
  unfold load_existing_results
  rw [mem_loadFold_completed]
  simp

theorem load_completed_sub_records (file : Option (List Line)) (p : JsonVal × JsonVal) :
    p ∈ (load_existing_results file).2 →
      ∃ d, d ∈ (load_existing_results file).1 ∧ recordSuccess d = true ∧ recordKey d = p := by
  cases file with
  | none => simp [load_existing_results]
  | some lines =>
      intro hp
      obtain ⟨d, hd, hsd, hkd⟩ := (mem_load_completed lines p).1 hp
      exact ⟨d, (mem_load_records lines d).2 hd, hsd, hkd⟩

/-! ## Lemmas about the record builders -/

theorem dget_metadataOf_success (sample : Sample) (runNumber : Nat) (modelName : String)
    (procTime : ℤ) (ts : String) :
    dget (metadataOf sample runNumber modelName procTime ts) "success" =
      some (.bool true) := rfl

theorem dget_metadataOf_sample_id (sample : Sample) (runNumber : Nat) (modelName : String)
    (procTime : ℤ) (ts : String) :
    dget (metadataOf sample runNumber modelName procTime ts) "sample_id" =
      some (.str (metaSampleId sample)) := rfl

theorem dget_metadataOf_run_number (sample : Sample) (runNumber : Nat) (modelName : String)
    (procTime : ℤ) (ts : String) :
    dget (metadataOf sample runNumber modelName procTime ts) "run_number" =
      some (.num runNumber) := rfl

theorem dget_add_metadata (result : Dict) (sample : Sample) (runNumber : Nat)
    (modelName : String) (procTime : ℤ) (ts : String) (k : String) :
    dget (add_metadata_to_result result sample runNumber modelName procTime ts) k =
      optOr (dget result k) (dget (metadataOf sample runNumber modelName procTime ts) k) := by
  unfold add_metadata_to_result
  exact dget_dictMerge _ _ k

/-! ## Lemmas about the executor -/

theorem extract_ok_withJson (t : ResponseText) (payload : Dict)
    (h : extract_json_from_response (some t) = .ok payload) : t = .withJson payload := by
  cases t <;> simp_all [extract_json_from_response]

theorem genAttemptErr_ok (modelName : String) (maxRetries attempt : Nat)
    (etype msg : String) (recurse : Unit → GenResult × List Event) (t : ResponseText)
    (h : (genAttemptErr modelName maxRetries attempt etype msg recurse).1 = .ok t) :
    (recurse ()).1 = .ok t := by
  unfold genAttemptErr at h
  split at h
  · exact h
  · split at h
    · exact h
    · simp at h

theorem genLoop_ok_oracle (modelName : String) (maxRetries : Nat)
    (oracle : Nat → AttemptOutcome) (t : ResponseText) :
    ∀ fuel attempt, (genLoop modelName maxRetries oracle attempt fuel).1 = .ok t →
      ∃ a, oracle a = .response t := by
  intro fuel
  induction fuel with
  | zero => intro attempt h; simp [genLoop] at h
  | succ fuel ih =>
      intro attempt h
      unfold genLoop at h
      cases ho : oracle attempt with
      | response rt =>
          cases rt with
          | emptyText =>
              rw [ho] at h
              exact ih (attempt + 1) (genAttemptErr_ok _ _ _ _ _ _ _ h)
          | withJson p =>
              rw [ho] at h
              simp at h
              exact ⟨attempt, by rw [ho, h]⟩
          | noJson s =>
              rw [ho] at h
              simp at h
              exact ⟨attempt, by rw [ho, h]⟩
          | badJson s =>
              rw [ho] at h
              simp at h
              exact ⟨attempt, by rw [ho, h]⟩
      | raises etype msg =>
          rw [ho] at h
          exact ih (attempt + 1) (genAttemptErr_ok _ _ _ _ _ _ _ h)

theorem generate_content_ok_oracle (modelName : String) (maxRetries : Nat)
    (oracle : Nat → AttemptOutcome) (t : ResponseText)
    (h : (generate_content modelName maxRetries oracle).1 = .ok t) :
    ∃ a, oracle a = .response t := by
  unfold generate_content at h
  split at h
  · simp at h
  · exact genLoop_ok_oracle modelName maxRetries oracle t maxRetries 0 h

theorem executorStep_ok_oracle (cfg : RunConfig) (oracle : Nat → AttemptOutcome)
    (payload : Dict)
    (h : (executorStep cfg oracle).1 = .ok payload) :
    ∃ a, oracle a = .response (.withJson payload) := by
  unfold executorStep at h
  simp only at h
  cases hg : (generate_content cfg.modelName cfg.maxRetries oracle).1 with
  | ok t =>
      rw [hg] at h
      dsimp only at h
      obtain rfl := extract_ok_withJson t payload h
      exact generate_content_ok_oracle _ _ _ _ hg
  | exn et m =>
      rw [hg] at h
      simp at h
  | noneReturn =>
      rw [hg] at h
      simp [extract_json_from_response] at h

/-! ## Lemmas about the orchestrator loop -/

/-- Two loop states that agree on everything except the processed-samples
counter: the later one did no new work. -/
def SameWork (st st' : OState) : Prop :=
  st'.completedRuns = st.completedRuns ∧ st'.appended = st.appended ∧
  st'.saveAttempts = st.saveAttempts ∧ st'.newResultsCount = st.newResultsCount ∧
  st'.calls = st.calls ∧ st'.remoteCallCount = st.remoteCallCount ∧
  st'.resourceExhausted = st.resourceExhausted

theorem sameWork_refl (st : OState) : SameWork st st :=
  ⟨rfl, rfl, rfl, rfl, rfl, rfl, rfl⟩

theorem SameWork.trans {a b c : OState} (h1 : SameWork a b) (h2 : SameWork b c) :
    SameWork a c := by
  obtain ⟨e1, e2, e3, e4, e5, e6, e7⟩ := h1
  obtain ⟨f1, f2, f3, f4, f5, f6, f7⟩ := h2
  exact ⟨f1.trans e1, f2.trans e2, f3.trans e3, f4.trans e4, f5.trans e5,
    f6.trans e6, f7.trans e7⟩

theorem mem_sampleCompletedRuns (completed : List (JsonVal × JsonVal))
    (sampleId : String) (runNum : Nat)
    (h : (JsonVal.str sampleId, JsonVal.num runNum) ∈ completed) :
    (JsonVal.num runNum) ∈ sampleCompletedRuns completed sampleId := by
  unfold sampleCompletedRuns
  exact List.mem_filterMap.2 ⟨(JsonVal.str sampleId, JsonVal.num runNum), h, by simp⟩

theorem remainingRuns_eq_nil (completed : List (JsonVal × JsonVal))
    (sampleId : String) (nRuns : Nat)
    (h : ∀ runNum ∈ List.range' 1 nRuns,
      (JsonVal.str sampleId, JsonVal.num runNum) ∈ completed) :
    remainingRuns completed sampleId nRuns = [] := by
  unfold remainingRuns
  apply List.filter_eq_nil_iff.2
  intro rn hrn
  simp only [decide_not, Bool.not_eq_true', decide_eq_false_iff_not, not_not]
  exact mem_sampleCompletedRuns completed sampleId rn (h rn hrn)

/-- A sample all of whose run indices are already in the completion set
contributes no work: the orchestrator either skips it or finds no
remaining runs. -/
theorem processSample_noWork (cfg : RunConfig) (oracle : Nat → Nat → Nat → AttemptOutcome)
    (saveOracle : Nat → Bool) (st : OState) (entry : Nat × Sample)
    (hc : build_prompt_for_sample cfg.template entry.2 cfg.codebook ≠ none →
      ∀ runNum ∈ List.range' 1 cfg.nRuns,
        ((JsonVal.str (loopSampleId entry.2 entry.1), JsonVal.num runNum) :
          JsonVal × JsonVal) ∈ st.completedRuns) :
    SameWork st (processSample cfg oracle saveOracle st entry) := by
  unfold processSample
  split
  · exact sameWork_refl st
  · cases hp : build_prompt_for_sample cfg.template entry.2 cfg.codebook with
    | none => exact sameWork_refl st
    | some prompt =>
        have hrem : remainingRuns st.completedRuns (loopSampleId entry.2 entry.1)
            cfg.nRuns = [] :=
          remainingRuns_eq_nil _ _ _ (hc (by simp [hp]))
        simp only [hrem, List.foldl_nil, if_pos]
        exact ⟨rfl, rfl, rfl, rfl, rfl, rfl, rfl⟩

theorem foldl_processSample_noWork (cfg : RunConfig)
    (oracle : Nat → Nat → Nat → AttemptOutcome) (saveOracle : Nat → Bool)
    (l : List (Nat × Sample)) (st : OState)
    (hc : ∀ entry ∈ l, build_prompt_for_sample cfg.template entry.2 cfg.codebook ≠ none →
      ∀ runNum ∈ List.range' 1 cfg.nRuns,
        ((JsonVal.str (loopSampleId entry.2 entry.1), JsonVal.num runNum) :
          JsonVal × JsonVal) ∈ st.completedRuns) :
    SameWork st (l.foldl (processSample cfg oracle saveOracle) st) := by
  induction l generalizing st with
  | nil => exact sameWork_refl st
  | cons e rest ih =>
      have h1 := processSample_noWork cfg oracle saveOracle st e
        (hc e (List.mem_cons_self e rest))
      rw [List.foldl_cons]
      refine (h1.trans (ih (processSample cfg oracle saveOracle st e) ?_))
      intro entry hmem hprompt runNum hrn
      rw [h1.1]
      exact hc entry (List.mem_cons_of_mem e hmem) hprompt runNum hrn

theorem processRun_calls_mem (cfg : RunConfig) (oracle : Nat → Nat → Nat → AttemptOutcome)
    (saveOracle : Nat → Bool) (sample : Sample) (idx runNum : Nat) (st : OState) :
    ∀ x ∈ (processRun cfg oracle saveOracle sample idx runNum st).calls,
      x ∈ st.calls ∨ x = (idx, runNum) := by
  unfold processRun
  split
  · exact fun x hx => Or.inl hx
  · dsimp only
    cases hr : (executorStep cfg (oracle idx runNum)).1 with
    | ok payload =>
        dsimp only
        split <;> intro x hx <;> simpa [List.mem_append] using hx
    | error e =>
        dsimp only
        split
        · intro x hx
          simpa [List.mem_append] using hx
        · split <;> intro x hx <;> simpa [List.mem_append] using hx

theorem processRun_appended_mem (cfg : RunConfig) (oracle : Nat → Nat → Nat → AttemptOutcome)
    (saveOracle : Nat → Bool) (sample : Sample) (idx runNum : Nat) (st : OState) :
    ∀ y ∈ (processRun cfg oracle saveOracle sample idx runNum st).appended,
      y ∈ st.appended ∨ y.1 = idx := by
  unfold processRun
  split
  · exact fun y hy => Or.inl hy
  · dsimp only
    cases hr : (executorStep cfg (oracle idx runNum)).1 with
    | ok payload =>
        dsimp only
        split <;> intro y hy
        · rcases (List.mem_append.1 hy) with h | h
          · exact Or.inl h
          · simp only [List.mem_singleton] at h
            exact Or.inr (by rw [h])
        · exact Or.inl hy
    | error e =>
        dsimp only
        split
        · exact fun y hy => Or.inl hy
        · split <;> intro y hy
          · rcases (List.mem_append.1 hy) with h | h
            · exact Or.inl h
            · simp only [List.mem_singleton] at h
              exact Or.inr (by rw [h])
          · exact Or.inl hy

theorem recordSuccess_add_metadata (payload : Dict) (sample : Sample) (runNumber : Nat)
    (modelName : String) (procTime : ℤ) (ts : String)
    (h : dget payload "success" = none) :
    recordSuccess (add_metadata_to_result payload sample runNumber modelName procTime ts) =
      true := by
  unfold recordSuccess dgetD
  rw [dget_add_metadata, h]
  simp [optOr, dget_metadataOf_success, isTruthy]

theorem recordKey_add_metadata (payload : Dict) (sample : Sample) (runNumber : Nat)
    (modelName : String) (procTime : ℤ) (ts : String)
    (hs : dget payload "sample_id" = none) (hr : dget payload "run_number" = none) :
    recordKey (add_metadata_to_result payload sample runNumber modelName procTime ts) =
      (.str (metaSampleId sample), .num runNumber) := by
  unfold recordKey dgetD
  rw [dget_add_metadata, dget_add_metadata, hs, hr]
  simp [optOr, dget_metadataOf_sample_id, dget_metadataOf_run_number]

theorem loopSampleId_eq_meta (sample : Sample) (idx : Nat)
    (h : sample.sample_id.isSome = true) :
    loopSampleId sample idx = metaSampleId sample := by
  obtain ⟨v, hv⟩ := Option.isSome_iff_exists.1 h
  simp [loopSampleId, metaSampleId, hv]

/-- The completion set stays covered by success records: every pair in it
is the key of a truthy-success record, either among the loaded ledger
records (`base`) or among the records appended so far. -/
def LedgerInv (base : List Dict) (st : OState) : Prop :=
  ∀ p ∈ st.completedRuns, ∃ d, (d ∈ base ∨ d ∈ st.appendedRecords) ∧
    recordSuccess d = true ∧ recordKey d = p

theorem processRun_inv (cfg : RunConfig) (oracle : Nat → Nat → Nat → AttemptOutcome)
    (saveOracle : Nat → Bool) (sample : Sample) (idx runNum : Nat) (st : OState)
    (base : List Dict) (hsid : sample.sample_id.isSome = true)
    (hclean : ∀ a d, oracle idx runNum a = .response (.withJson d) →
      dget d "success" = none ∧ dget d "sample_id" = none ∧ dget d "run_number" = none)
    (hinv : LedgerInv base st) :
    LedgerInv base (processRun cfg oracle saveOracle sample idx runNum st) := by
  unfold processRun
  split
  · exact hinv
  · dsimp only
    cases hr : (executorStep cfg (oracle idx runNum)).1 with
    | ok payload =>
        dsimp only
        obtain ⟨a, ha⟩ := executorStep_ok_oracle cfg (oracle idx runNum) payload hr
        obtain ⟨hps, hpsid, hprn⟩ := hclean a payload ha
        split
        · intro p hp
          simp only [mem_insertIfAbsent] at hp
          rcases hp with hp | rfl
          · obtain ⟨d, hd, hsd, hkd⟩ := hinv p hp
            refine ⟨d, ?_, hsd, hkd⟩
            rcases hd with hd | hd
            · exact Or.inl hd
            · refine Or.inr ?_
              simp only [OState.appendedRecords, List.map_append] at hd ⊢
              exact List.mem_append.2 (Or.inl hd)
          · refine ⟨add_metadata_to_result payload sample runNum cfg.modelName
              cfg.procTime cfg.ts, ?_, ?_, ?_⟩
            · refine Or.inr ?_
              simp [OState.appendedRecords, List.map_append]
            · exact recordSuccess_add_metadata payload sample runNum cfg.modelName
                cfg.procTime cfg.ts hps
            · rw [recordKey_add_metadata payload sample runNum cfg.modelName
                cfg.procTime cfg.ts hpsid hprn, loopSampleId_eq_meta sample idx hsid]
        · exact hinv
    | error e =>
        dsimp only
        split
        · exact hinv
        · split
          · intro p hp
            obtain ⟨d, hd, hsd, hkd⟩ := hinv p hp
            refine ⟨d, ?_, hsd, hkd⟩
            rcases hd with hd | hd
            · exact Or.inl hd
            · refine Or.inr ?_
              simp only [OState.appendedRecords, List.map_append] at hd ⊢
              exact List.mem_append.2 (Or.inl hd)
          · exact hinv

theorem foldl_processRun_inv (cfg : RunConfig) (oracle : Nat → Nat → Nat → AttemptOutcome)
    (saveOracle : Nat → Bool) (sample : Sample) (idx : Nat) (base : List Dict)
    (l : List Nat) (st : OState) (hsid : sample.sample_id.isSome = true)
    (hclean : ∀ rn a d, oracle idx rn a = .response (.withJson d) →
      dget d "success" = none ∧ dget d "sample_id" = none ∧ dget d "run_number" = none)
    (hinv : LedgerInv base st) :
    LedgerInv base
      (l.foldl (fun s runNum => processRun cfg oracle saveOracle sample idx runNum s) st) := by
  induction l generalizing st with
  | nil => exact hinv
  | cons rn rest ih =>
      rw [List.foldl_cons]
      exact ih _ (processRun_inv cfg oracle saveOracle sample idx rn st base hsid
        (hclean rn) hinv)

theorem processSample_inv (cfg : RunConfig) (oracle : Nat → Nat → Nat → AttemptOutcome)
    (saveOracle : Nat → Bool) (st : OState) (entry : Nat × Sample) (base : List Dict)
    (hsid : entry.2.sample_id.isSome = true)
    (hclean : ∀ rn a d, oracle entry.1 rn a = .response (.withJson d) →
      dget d "success" = none ∧ dget d "sample_id" = none ∧ dget d "run_number" = none)
    (hinv : LedgerInv base st) :
    LedgerInv base (processSample cfg oracle saveOracle st entry) := by
  unfold processSample
  split
  · exact hinv
  · cases hp : build_prompt_for_sample cfg.template entry.2 cfg.codebook with
    | none => exact hinv
    | some prompt =>
        dsimp only
        split
        · exact fun p hp => hinv p hp
        · intro p hp
          exact foldl_processRun_inv cfg oracle saveOracle entry.2 entry.1 base _ st
            hsid hclean hinv p hp

theorem foldl_processSample_inv (cfg : RunConfig)
    (oracle : Nat → Nat → Nat → AttemptOutcome) (saveOracle : Nat → Bool)
    (base : List Dict) (l : List (Nat × Sample)) (st : OState)
    (hsid : ∀ e ∈ l, e.2.sample_id.isSome = true)
    (hclean : ∀ i rn a d, oracle i rn a = .response (.withJson d) →
      dget d "success" = none ∧ dget d "sample_id" = none ∧ dget d "run_number" = none)
    (hinv : LedgerInv base st) :
    LedgerInv base (l.foldl (processSample cfg oracle saveOracle) st) := by
  induction l generalizing st with
  | nil => exact hinv
  | cons e rest ih =>
      rw [List.foldl_cons]
      exact ih _ (fun x hx => hsid x (List.mem_cons_of_mem e hx))
        (processSample_inv cfg oracle saveOracle st e base
          (hsid e (List.mem_cons_self e rest)) (hclean e.1) hinv)

theorem processRun_completed_const (cfg : RunConfig)
    (oracle : Nat → Nat → Nat → AttemptOutcome) (saveOracle : Nat → Bool)
    (sample : Sample) (idx runNum : Nat) (st : OState)
    (hsave : ∀ n, saveOracle n = false) :
    (processRun cfg oracle saveOracle sample idx runNum st).completedRuns =
      st.completedRuns := by
  unfold processRun
  split
  · rfl
  · dsimp only
    cases hr : (executorStep cfg (oracle idx runNum)).1 with
    | ok payload => simp [hsave]
    | error e =>
        dsimp only
        split
        · rfl
        · simp [hsave]

theorem foldl_processRun_completed_const (cfg : RunConfig)
    (oracle : Nat → Nat → Nat → AttemptOutcome) (saveOracle : Nat → Bool)
    (sample : Sample) (idx : Nat) (l : List Nat) (st : OState)
    (hsave : ∀ n, saveOracle n = false) :
    (l.foldl (fun s runNum => processRun cfg oracle saveOracle sample idx runNum s)
      st).completedRuns = st.completedRuns := by
  induction l generalizing st with
  | nil => rfl
  | cons rn rest ih =>
      rw [List.foldl_cons, ih]
      exact processRun_completed_const cfg oracle saveOracle sample idx rn st hsave

theorem processSample_completed_const (cfg : RunConfig)
    (oracle : Nat → Nat → Nat → AttemptOutcome) (saveOracle : Nat → Bool)
    (st : OState) (entry : Nat × Sample) (hsave : ∀ n, saveOracle n = false) :
    (processSample cfg oracle saveOracle st entry).completedRuns = st.completedRuns := by
  unfold processSample
  split
  · rfl
  · cases hp : build_prompt_for_sample cfg.template entry.2 cfg.codebook with
    | none => rfl
    | some prompt =>
        dsimp only
        split
        · rfl
        · exact foldl_processRun_completed_const cfg oracle saveOracle entry.2 entry.1
            _ st hsave

theorem foldl_processSample_completed_const (cfg : RunConfig)
    (oracle : Nat → Nat → Nat → AttemptOutcome) (saveOracle : Nat → Bool)
    (l : List (Nat × Sample)) (st : OState) (hsave : ∀ n, saveOracle n = false) :
    (l.foldl (processSample cfg oracle saveOracle) st).completedRuns =
      st.completedRuns := by
  induction l generalizing st with
  | nil => rfl
  | cons e rest ih =>
      rw [List.foldl_cons, ih (processSample cfg oracle saveOracle st e)]
      exact processSample_completed_const cfg oracle saveOracle st e hsave

theorem processSample_of_prompt_none (cfg : RunConfig)
    (oracle : Nat → Nat → Nat → AttemptOutcome) (saveOracle : Nat → Bool)
    (st : OState) (entry : Nat × Sample)
    (hp : build_prompt_for_sample cfg.template entry.2 cfg.codebook = none) :
    processSample cfg oracle saveOracle st entry = st := by
  unfold processSample
  split
  · rfl
  · rw [hp]

theorem foldl_processRun_calls_mem (cfg : RunConfig)
    (oracle : Nat → Nat → Nat → AttemptOutcome) (saveOracle : Nat → Bool)
    (sample : Sample) (idx : Nat) (l : List Nat) (st : OState) :
    ∀ x ∈ (l.foldl (fun s runNum => processRun cfg oracle saveOracle sample idx runNum s)
      st).calls, x ∈ st.calls ∨ x.1 = idx := by
  induction l generalizing st with
  | nil => exact fun x hx => Or.inl hx
  | cons rn rest ih =>
      intro x hx
      rw [List.foldl_cons] at hx
      rcases ih (processRun cfg oracle saveOracle sample idx rn st) x hx with h | h
      · rcases processRun_calls_mem cfg oracle saveOracle sample idx rn st x h with h2 | h2
        · exact Or.inl h2
        · exact Or.inr (by rw [h2])
      · exact Or.inr h

theorem foldl_processRun_appended_mem (cfg : RunConfig)
    (oracle : Nat → Nat → Nat → AttemptOutcome) (saveOracle : Nat → Bool)
    (sample : Sample) (idx : Nat) (l : List Nat) (st : OState) :
    ∀ y ∈ (l.foldl (fun s runNum => processRun cfg oracle saveOracle sample idx runNum s)
      st).appended, y ∈ st.appended ∨ y.1 = idx := by
  induction l generalizing st with
  | nil => exact fun y hy => Or.inl hy
  | cons rn rest ih =>
      intro y hy
      rw [List.foldl_cons] at hy
      rcases ih (processRun cfg oracle saveOracle sample idx rn st) y hy with h | h
      · exact processRun_appended_mem cfg oracle saveOracle sample idx rn st y h
      · exact Or.inr h

theorem processSample_calls_mem (cfg : RunConfig)
    (oracle : Nat → Nat → Nat → AttemptOutcome) (saveOracle : Nat → Bool)
    (st : OState) (entry : Nat × Sample) :
    ∀ x ∈ (processSample cfg oracle saveOracle st entry).calls,
      x ∈ st.calls ∨ x.1 = entry.1 := by
  unfold processSample
  split
  · exact fun x hx => Or.inl hx
  · cases hp : build_prompt_for_sample cfg.template entry.2 cfg.codebook with
    | none => exact fun x hx => Or.inl hx
    | some prompt =>
        dsimp only
        split
        · exact fun x hx => Or.inl hx
        · exact foldl_processRun_calls_mem cfg oracle saveOracle entry.2 entry.1 _ st

theorem processSample_appended_mem (cfg : RunConfig)
    (oracle : Nat → Nat → Nat → AttemptOutcome) (saveOracle : Nat → Bool)
    (st : OState) (entry : Nat × Sample) :
    ∀ y ∈ (processSample cfg oracle saveOracle st entry).appended,
      y ∈ st.appended ∨ y.1 = entry.1 := by
  unfold processSample
  split
  · exact fun y hy => Or.inl hy
  · cases hp : build_prompt_for_sample cfg.template entry.2 cfg.codebook with
    | none => exact fun y hy => Or.inl hy
    | some prompt =>
        dsimp only
        split
        · exact fun y hy => Or.inl hy
        · exact foldl_processRun_appended_mem cfg oracle saveOracle entry.2 entry.1 _ st

theorem foldl_processSample_skipped (cfg : RunConfig)
    (oracle : Nat → Nat → Nat → AttemptOutcome) (saveOracle : Nat → Bool) (i : Nat)
    (l : List (Nat × Sample)) (st : OState)
    (hl : ∀ e ∈ l, e.1 = i → build_prompt_for_sample cfg.template e.2 cfg.codebook = none)
    (hc : ∀ runNum, (i, runNum) ∉ st.calls) (ha : ∀ d, (i, d) ∉ st.appended) :
    (∀ runNum, (i, runNum) ∉
      (l.foldl (processSample cfg oracle saveOracle) st).calls) ∧
    (∀ d, (i, d) ∉ (l.foldl (processSample cfg oracle saveOracle) st).appended) := by
  induction l generalizing st with
  | nil => exact ⟨hc, ha⟩
  | cons e rest ih =>
      rw [List.foldl_cons]
      by_cases hei : e.1 = i
      · have hp := hl e (List.mem_cons_self e rest) hei
        rw [processSample_of_prompt_none cfg oracle saveOracle st e hp]
        exact ih st (fun x hx => hl x (List.mem_cons_of_mem e hx)) hc ha
      · refine ih (processSample cfg oracle saveOracle st e)
          (fun x hx => hl x (List.mem_cons_of_mem e hx)) ?_ ?_
        · intro runNum hmem
          rcases processSample_calls_mem cfg oracle saveOracle st e (i, runNum) hmem
            with h | h
          · exact hc runNum h
          · exact hei h.symm
        · intro d hmem
          rcases processSample_appended_mem cfg oracle saveOracle st e (i, d) hmem
            with h | h
          · exact ha d h
          · exact hei h.symm

/-! ## Concrete fixtures used by the claim theorems -/

/-- A codebook row for code `12345`. -/
def cbRow : CodebookRow :=
  { code_1 := "A", title_1 := "Agriculture", code_2 := "01", title_2 := "Crops",
    code_3 := "011", title_3 := "Cereals", code_4 := "0111", title_4 := "Rice",
    code_5 := "12345", title_5 := "Paddy rice", desc_5 := none }

/-- A sample whose code matches the codebook fixture. -/
def sampleA : Sample :=
  { sample_id := some "s0", rowIndex := 0, text := "farm work",
    kbli_code := "12345", category := some "c", dataset_name := some "mini_test.csv",
    id_created_at := none }

/-- A second matching sample. -/
def sampleB : Sample :=
  { sampleA with sample_id := some "s1", rowIndex := 1, text := "rice planting" }

/-- A sample whose code has no codebook match. -/
def sample99 : Sample :=
  { sampleA with sample_id := some "s99", kbli_code := "99999" }

/-- A configuration over the codebook fixture. -/
def cfgA : RunConfig :=
  { modelName := "models/gemini-2.5-flash-lite", nRuns := 1, maxRetries := 3,
    template := "judge this", codebook := [cbRow], ts := "2025-01-01T00:00:00",
    procTime := 0 }

/-- Every attempt of the first sample fails with a quota-class error; the
second sample's attempts succeed. -/
def oracleC1 : Nat → Nat → Nat → AttemptOutcome := fun i _ _ =>
  if i = 0 then .raises "ResourceExhausted" "429 quota exceeded for this model"
  else .response (.withJson [("is_correct", .bool true)])

/-- Every attempt raises a rate-limit-class error. -/
def rlOracle : Nat → AttemptOutcome :=
  fun _ => .raises "ResourceExhausted" "429 Resource has been exhausted (check quota)."

/-- Every attempt raises an ordinary (non-rate-limit) error. -/
def otherOracle : Nat → AttemptOutcome := fun _ => .raises "RuntimeError" "boom"

/-- A remote oracle for runs where the calls' outcomes are irrelevant. -/
def oracleAny : Nat → Nat → Nat → AttemptOutcome :=
  fun _ _ _ => .raises "RuntimeError" "boom"

/-! ## Claim theorems -/

/-- C2 (code bug evidence): with `max_retries = 3` and every attempt failing
with a rate-limit-class error, `generate_content` issues 3 requests, sleeps
3 times, and then falls off its retry loop returning `None` — it does NOT
propagate a failure to the caller, contradicting its own docstring
("Raises ... Exception: If all retry attempts fail").  When every attempt
fails with a non-rate-limit error, the final attempt does re-raise. -/
theorem claim2_executor_returns_none_after_exhausted_retries :
    (generate_content "models/gemini-2.5-flash-lite" 3 rlOracle).1 = .noneReturn ∧
    countRemoteCalls (generate_content "models/gemini-2.5-flash-lite" 3 rlOracle).2 = 3 ∧
    countSleeps (generate_content "models/gemini-2.5-flash-lite" 3 rlOracle).2 = 3 ∧
    (generate_content "models/gemini-2.5-flash-lite" 3 otherOracle).1 =
      .exn "RuntimeError" "boom" :=
  ⟨rfl, rfl, rfl, rfl⟩

/-- C1 (code bug evidence): a quota-class failure inside the executor does
NOT reach the orchestrator as a raised exception.  With every attempt of
sample 0 failing with a `429` error, the executor returns `None`, the JSON
extractor then raises a `TypeError` (not quota-class), so the orchestrator
appends an error record for the triggering attempt, never trips the
breaker, and goes on to call the remote service for sample 1. -/
theorem claim1_quota_failure_swallowed_not_halting :
    (run_pilot_study cfgA [sampleA, sampleB] none oracleC1
      (fun _ => true)).finalState.resourceExhausted = false ∧
    (run_pilot_study cfgA [sampleA, sampleB] none oracleC1
      (fun _ => true)).finalState.calls = [(0, 1), (1, 1)] ∧
    (run_pilot_study cfgA [sampleA, sampleB] none oracleC1
      (fun _ => true)).finalState.appended.map
        (fun x => (x.1, dget x.2 "success", dget x.2 "error_type")) =
      [(0, some (.bool false), some (.str "TypeError")),
       (1, some (.bool true), none)] :=
  ⟨rfl, rfl, rfl⟩

/-- C6: the rate governor returns `(60 / rpm) * 1.1` seconds for the
registered rpm of the model, `rpm = 15` models give 4.4s, `rpm = 2` models
give 33s, and any model missing from the registry defaults to the
`rpm = 15` value. -/
theorem claim6_rate_governor :
    get_rate_limit_delay "models/gemini-1.5-flash-latest" = 44 / 10 ∧
    get_rate_limit_delay "models/gemini-1.5-pro-latest" = 33 ∧
    get_rate_limit_delay "models/gemini-2.5-flash-lite" = 44 / 10 ∧
    (∀ modelName, lookupModel modelName = none →
      get_rate_limit_delay modelName = 44 / 10) ∧
    (∀ modelName rpm desc, lookupModel modelName = some (rpm, desc) →
      get_rate_limit_delay modelName = 60 / (rpm : ℚ) * (11 / 10)) := by
  refine ⟨?_, ?_, ?_, ?_, ?_⟩
  · have h : lookupRpm "models/gemini-1.5-flash-latest" = 15 := rfl
    rw [get_rate_limit_delay, h]; norm_num
  · have h : lookupRpm "models/gemini-1.5-pro-latest" = 2 := rfl
    rw [get_rate_limit_delay, h]; norm_num
  · have h : lookupRpm "models/gemini-2.5-flash-lite" = 15 := rfl
    rw [get_rate_limit_delay, h]; norm_num
  · intro modelName hm
    have h : lookupRpm modelName = 15 := by rw [lookupRpm, hm]
    rw [get_rate_limit_delay, h]; norm_num
  · intro modelName rpm desc hm
    have h : lookupRpm modelName = rpm := by rw [lookupRpm, hm]
    rw [get_rate_limit_delay, h]

/-- C6 witness: the governor's default for a model missing from the
registry is the `rpm = 15` delay. -/
theorem claim6_rate_governor_witness :
    lookupModel "models/unknown" = none ∧
    get_rate_limit_delay "models/unknown" = 44 / 10 :=
  ⟨rfl, claim6_rate_governor.2.2.2.1 "models/unknown" rfl⟩

/-- C10: for a model missing from the registry, `generate_content` raises
`ValueError` before issuing any remote request or sleeping (its trace is
empty), while the rate governor accepts the same name and returns the
default delay. -/
theorem claim10_unknown_model_rejected (modelName : String)
    (h : lookupModel modelName = none) (maxRetries : Nat)
    (oracle : Nat → AttemptOutcome) :
    generate_content modelName maxRetries oracle =
      (.exn "ValueError" (String.append (String.append "Model " modelName)
        " not available. Use get_available_models() to see options."), []) ∧
    get_rate_limit_delay modelName = 44 / 10 := by
  constructor
  · unfold generate_content
    rw [h]
    simp
  · have hr : lookupRpm modelName = 15 := by rw [lookupRpm, h]
    rw [get_rate_limit_delay, hr]; norm_num

/-- C10 witness: a concrete unknown model is rejected with an empty trace
yet still gets a governor delay. -/
theorem claim10_unknown_model_rejected_witness :
    lookupModel "models/gemini-9.9-ultra" = none ∧
    (generate_content "models/gemini-9.9-ultra" 3 rlOracle =
      (.exn "ValueError" (String.append (String.append "Model " "models/gemini-9.9-ultra")
        " not available. Use get_available_models() to see options."), []) ∧
     get_rate_limit_delay "models/gemini-9.9-ultra" = 44 / 10) :=
  ⟨rfl, claim10_unknown_model_rejected "models/gemini-9.9-ultra" rfl 3 rlOracle⟩

/-- C3: when every run index `1..N` of every non-skipped sample is already
in the completion set reconstructed from the ledger, re-invoking the
orchestrator issues zero executor calls and zero remote requests, leaves
the completion set exactly as loaded, appends nothing, and generates zero
new results — already-successful runs are never re-issued. -/
theorem claim3_idempotent_resume (cfg : RunConfig) (samples : List Sample)
    (file : Option (List Line)) (oracle : Nat → Nat → Nat → AttemptOutcome)
    (saveOracle : Nat → Bool)
    (hc : ∀ entry ∈ samples.enum,
      build_prompt_for_sample cfg.template entry.2 cfg.codebook ≠ none →
      ∀ runNum ∈ List.range' 1 cfg.nRuns,
        ((JsonVal.str (loopSampleId entry.2 entry.1), JsonVal.num runNum) :
          JsonVal × JsonVal) ∈ (load_existing_results file).2) :
    (run_pilot_study cfg samples file oracle saveOracle).finalState.calls = [] ∧
    (run_pilot_study cfg samples file oracle saveOracle).finalState.remoteCallCount = 0 ∧
    (run_pilot_study cfg samples file oracle saveOracle).finalState.completedRuns =
      (load_existing_results file).2 ∧
    (run_pilot_study cfg samples file oracle saveOracle).finalState.newResultsCount = 0 ∧
    (run_pilot_study cfg samples file oracle saveOracle).finalState.appended = [] := by
  by_cases h : (load_existing_results file).2.length = samples.length * cfg.nRuns
  · simp only [run_pilot_study, if_pos h]
    exact ⟨rfl, rfl, rfl, rfl, rfl⟩
  · simp only [run_pilot_study, if_neg h]
    have hw := foldl_processSample_noWork cfg oracle saveOracle samples.enum
      (initState (load_existing_results file).2) hc
    obtain ⟨e1, e2, e3, e4, e5, e6, e7⟩ := hw
    exact ⟨e5, e6, e1, e4, e2⟩

/-- C3 witness: a one-sample, one-run dataset whose single success record
is already in the ledger leads to a re-invocation that does nothing. -/
theorem claim3_idempotent_resume_witness :
    (∀ entry ∈ [sampleA].enum,
      build_prompt_for_sample cfgA.template entry.2 cfgA.codebook ≠ none →
      ∀ runNum ∈ List.range' 1 cfgA.nRuns,
        ((JsonVal.str (loopSampleId entry.2 entry.1), JsonVal.num runNum) :
          JsonVal × JsonVal) ∈
          (load_existing_results (some [Line.record
            [("sample_id", .str "s0"), ("run_number", .num 1),
             ("success", .bool true)]])).2) ∧
    ((run_pilot_study cfgA [sampleA]
        (some [Line.record [("sample_id", .str "s0"), ("run_number", .num 1),
          ("success", .bool true)]]) oracleAny (fun _ => true)).finalState.calls = [] ∧
     (run_pilot_study cfgA [sampleA]
        (some [Line.record [("sample_id", .str "s0"), ("run_number", .num 1),
          ("success", .bool true)]]) oracleAny (fun _ => true)).finalState.remoteCallCount = 0 ∧
     (run_pilot_study cfgA [sampleA]
        (some [Line.record [("sample_id", .str "s0"), ("run_number", .num 1),
          ("success", .bool true)]]) oracleAny (fun _ => true)).finalState.completedRuns =
       (load_existing_results (some [Line.record
         [("sample_id", .str "s0"), ("run_number", .num 1),
          ("success", .bool true)]])).2 ∧
     (run_pilot_study cfgA [sampleA]
        (some [Line.record [("sample_id", .str "s0"), ("run_number", .num 1),
          ("success", .bool true)]]) oracleAny (fun _ => true)).finalState.newResultsCount = 0 ∧
     (run_pilot_study cfgA [sampleA]
        (some [Line.record [("sample_id", .str "s0"), ("run_number", .num 1),
          ("success", .bool true)]]) oracleAny (fun _ => true)).finalState.appended = []) :=
  ⟨by decide, claim3_idempotent_resume cfgA [sampleA] _ oracleAny (fun _ => true)
    (by decide)⟩

/-- C4: the completion-state reconstructor returns exactly the keys of the
parseable records whose success flag is truthy — a missing file yields the
empty list and empty set, unparseable and blank lines are skipped, and on
the ledger `(s1,1,true), (s1,1,false), (s1,2,true)` the completion set is
exactly `{(s1,1), (s1,2)}`, with membership unchanged under reordering,
junk lines and duplicate records. -/
theorem claim4_load_existing_results_characterization :
    load_existing_results none = ([], []) ∧
    (∀ lines (p : JsonVal × JsonVal),
      p ∈ (load_existing_results (some lines)).2 ↔
        ∃ d, Line.record d ∈ lines ∧ recordSuccess d = true ∧ recordKey d = p) ∧
    (load_existing_results (some
      [Line.record [("sample_id", .str "s1"), ("run_number", .num 1),
         ("success", .bool true)],
       Line.record [("sample_id", .str "s1"), ("run_number", .num 1),
         ("success", .bool false)],
       Line.record [("sample_id", .str "s1"), ("run_number", .num 2),
         ("success", .bool true)]])).2 =
      [(.str "s1", .num 1), (.str "s1", .num 2)] ∧
    (∀ p : JsonVal × JsonVal,
      p ∈ (load_existing_results (some
        [Line.junk "not json", Line.blank,
         Line.record [("sample_id", .str "s1"), ("run_number", .num 2),
           ("success", .bool true)],
         Line.record [("sample_id", .str "s1"), ("run_number", .num 1),
           ("success", .bool false)],
         Line.record [("sample_id", .str "s1"), ("run_number", .num 1),
           ("success", .bool true)],
         Line.record [("sample_id", .str "s1"), ("run_number", .num 2),
           ("success", .bool true)]])).2 ↔
      p ∈ (load_existing_results (some
        [Line.record [("sample_id", .str "s1"), ("run_number", .num 1),
           ("success", .bool true)],
         Line.record [("sample_id", .str "s1"), ("run_number", .num 1),
           ("success", .bool false)],
         Line.record [("sample_id", .str "s1"), ("run_number", .num 2),
           ("success", .bool true)]])).2) := by
  refine ⟨rfl, mem_load_completed, by decide, ?_⟩
  intro p
  rw [mem_load_completed, mem_load_completed]
  constructor
  · rintro ⟨d, hd, hs, hk⟩
    refine ⟨d, ?_, hs, hk⟩
    simp only [List.mem_cons, List.not_mem_nil, or_false] at hd ⊢
    rcases hd with hd | hd | hd | hd | hd | hd
    · exact absurd hd (by simp)
    · exact absurd hd (by simp)
    · obtain rfl := Line.record.inj hd; decide
    · obtain rfl := Line.record.inj hd; decide
    · obtain rfl := Line.record.inj hd; decide
    · obtain rfl := Line.record.inj hd; decide
  · rintro ⟨d, hd, hs, hk⟩
    refine ⟨d, ?_, hs, hk⟩
    simp only [List.mem_cons, List.not_mem_nil, or_false] at hd ⊢
    rcases hd with hd | hd | hd
    · obtain rfl := Line.record.inj hd; decide
    · obtain rfl := Line.record.inj hd; decide
    · obtain rfl := Line.record.inj hd; decide

/-- C5 counterexample: a one-sample dataset whose code has no codebook
match, with `n_runs = 3`: the sample is skipped (no call, no record), yet
the expected-runs denominator is `3`, not the `n_runs * 0 = 0` the claim's
exclusion would give — the unmatched sample is NOT excluded from the
denominator. -/
theorem claim5_skip_counted_in_denominator_cex :
    (run_pilot_study { cfgA with nRuns := 3 } [sample99] none oracleAny
      (fun _ => true)).totalExpectedRuns = 3 ∧
    (run_pilot_study { cfgA with nRuns := 3 } [sample99] none oracleAny
      (fun _ => true)).finalState.appended = [] ∧
    (run_pilot_study { cfgA with nRuns := 3 } [sample99] none oracleAny
      (fun _ => true)).finalState.calls = [] ∧
    ([sample99].filter (fun s =>
      (build_prompt_for_sample { cfgA with nRuns := 3 }.template s
        { cfgA with nRuns := 3 }.codebook).isSome)).length = 0 ∧
    (run_pilot_study { cfgA with nRuns := 3 } [sample99] none oracleAny
      (fun _ => true)).totalExpectedRuns ≠
      { cfgA with nRuns := 3 }.nRuns *
        ([sample99].filter (fun s =>
          (build_prompt_for_sample { cfgA with nRuns := 3 }.template s
            { cfgA with nRuns := 3 }.codebook).isSome)).length := by
  refine ⟨rfl, rfl, rfl, rfl, ?_⟩
  decide

/-- C5 (amended): a sample whose assigned code has no codebook match
contributes zero executor calls and zero ledger appends, but it still
counts in the expected-runs denominator, which is always
`total samples * n_runs` regardless of skips. -/
theorem claim5_skip_amended (cfg : RunConfig) (samples : List Sample)
    (file : Option (List Line)) (oracle : Nat → Nat → Nat → AttemptOutcome)
    (saveOracle : Nat → Bool) (i : Nat)
    (hskip : ∀ entry ∈ samples.enum, entry.1 = i →
      build_prompt_for_sample cfg.template entry.2 cfg.codebook = none) :
    (∀ runNum, (i, runNum) ∉
      (run_pilot_study cfg samples file oracle saveOracle).finalState.calls) ∧
    (∀ d, (i, d) ∉
      (run_pilot_study cfg samples file oracle saveOracle).finalState.appended) ∧
    (run_pilot_study cfg samples file oracle saveOracle).totalExpectedRuns =
      samples.length * cfg.nRuns := by
  by_cases h : (load_existing_results file).2.length = samples.length * cfg.nRuns
  · simp only [run_pilot_study, if_pos h]
    exact ⟨fun runNum hm => by simp [initState] at hm,
      fun d hm => by simp [initState] at hm, trivial⟩
  · simp only [run_pilot_study, if_neg h]
    have hs := foldl_processSample_skipped cfg oracle saveOracle i samples.enum
      (initState (load_existing_results file).2) hskip
      (fun runNum hm => by simp [initState] at hm)
      (fun d hm => by simp [initState] at hm)
    exact ⟨hs.1, hs.2, trivial⟩

/-- C5 witness: in a two-sample dataset whose second sample has no
codebook match, index 1 receives no call and no append, and the
denominator still counts both samples. -/
theorem claim5_skip_amended_witness :
    (∀ entry ∈ [sampleA, sample99].enum, entry.1 = 1 →
      build_prompt_for_sample cfgA.template entry.2 cfgA.codebook = none) ∧
    ((∀ runNum, (1, runNum) ∉
      (run_pilot_study cfgA [sampleA, sample99] none oracleAny
        (fun _ => true)).finalState.calls) ∧
     (∀ d, (1, d) ∉
      (run_pilot_study cfgA [sampleA, sample99] none oracleAny
        (fun _ => true)).finalState.appended) ∧
     (run_pilot_study cfgA [sampleA, sample99] none oracleAny
       (fun _ => true)).totalExpectedRuns = [sampleA, sample99].length * cfgA.nRuns) :=
  ⟨by decide, claim5_skip_amended cfgA [sampleA, sample99] none oracleAny
    (fun _ => true) 1 (by decide)⟩

/-- C7 counterexample: success records carry a `processing_time_seconds`
metadata field that error records do not, so an error record does not have
exactly the same metadata shape as a success record. -/
theorem claim7_error_record_missing_processing_time_cex :
    dget (add_metadata_to_result [] sampleA 1 "m" 0 "ts")
      "processing_time_seconds" = some (.num 0) ∧
    dget (create_error_record sampleA ⟨"ValueError", "boom"⟩ 1 "m" "ts")
      "processing_time_seconds" = none :=
  ⟨rfl, rfl⟩

/-- C7 (amended): every error record has `success=false`, `error_type` the
exception's type name, `error_message` its message, the payload fields
explicitly null/empty (`is_correct`, `confidence_score`, `reasoning` and
`alternative_reasoning` null, `alternative_codes` empty), and the same
metadata fields as success records — sample id, row index, text, code,
category, run index, model name, dataset name, timestamp — except the
processing-time field, which only success records carry. -/
theorem claim7_error_record_amended (sample : Sample) (error : PyExn)
    (runNumber : Nat) (modelName : String) (procTime : ℤ) (ts : String) :
    dget (create_error_record sample error runNumber modelName ts) "success" =
      some (.bool false) ∧
    dget (create_error_record sample error runNumber modelName ts) "error_type" =
      some (.str error.etype) ∧
    dget (create_error_record sample error runNumber modelName ts) "error_message" =
      some (.str error.msg) ∧
    dget (create_error_record sample error runNumber modelName ts) "is_correct" =
      some .null ∧
    dget (create_error_record sample error runNumber modelName ts) "confidence_score" =
      some .null ∧
    dget (create_error_record sample error runNumber modelName ts) "reasoning" =
      some .null ∧
    dget (create_error_record sample error runNumber modelName ts) "alternative_codes" =
      some (.strList []) ∧
    dget (create_error_record sample error runNumber modelName ts)
      "alternative_reasoning" = some .null ∧
    (∀ k ∈ ["sample_id", "original_row_index", "original_text",
        "assigned_kbli_code", "category", "run_number", "model_name",
        "dataset_name", "timestamp"],
      dget (create_error_record sample error runNumber modelName ts) k =
        dget (metadataOf sample runNumber modelName procTime ts) k) ∧
    dget (create_error_record sample error runNumber modelName ts)
      "processing_time_seconds" = none := by
  refine ⟨rfl, rfl, rfl, rfl, rfl, rfl, rfl, rfl, ?_, ?_⟩
  · intro k hk
    fin_cases hk <;> rfl
  · cases h : sample.id_created_at <;>
      simp [create_error_record, dget, h]

/-- C7 witness: the amended field equations evaluated at a concrete sample
and exception. -/
theorem claim7_error_record_amended_witness :
    dget (create_error_record sampleA ⟨"ValueError", "boom"⟩ 1 "m" "ts") "success" =
      some (.bool false) ∧
    dget (create_error_record sampleA ⟨"ValueError", "boom"⟩ 1 "m" "ts") "error_type" =
      some (.str "ValueError") ∧
    dget (create_error_record sampleA ⟨"ValueError", "boom"⟩ 1 "m" "ts") "sample_id" =
      dget (metadataOf sampleA 1 "m" 0 "ts") "sample_id" := by
  have h := claim7_error_record_amended sampleA ⟨"ValueError", "boom"⟩ 1 "m" 0 "ts"
  exact ⟨h.1, h.2.1, h.2.2.2.2.2.2.2.2.1 "sample_id" (by decide)⟩

/-- C8 counterexample: a parsed payload that itself contains
`success: true` leaves the record's success field `True` even though the
payload does contain a `success` key — so "success equals True only when
the payload contains no success key" is false as stated. -/
theorem claim8_success_key_override_cex :
    dget (add_metadata_to_result [("success", JsonVal.bool true)] sampleA 1 "m" 0 "ts")
      "success" = some (.bool true) ∧
    dget [("success", JsonVal.bool true)] "success" ≠ none :=
  ⟨rfl, by decide⟩

/-- C8 (amended): in `{**metadata, **result}` the payload's keys take
precedence over the metadata's on every collision — the merged record's
lookup is the payload's when the key is defined there and the metadata's
otherwise; consequently the record's success field equals `True` exactly
when the payload either lacks a `success` key or itself maps it to
`true`, and likewise the other metadata fields survive only as far as the
payload does not redefine them. -/
theorem claim8_merge_precedence_amended (result : Dict) (sample : Sample)
    (runNumber : Nat) (modelName : String) (procTime : ℤ) (ts : String) :
    (∀ k, dget (add_metadata_to_result result sample runNumber modelName procTime ts) k =
      optOr (dget result k)
        (dget (metadataOf sample runNumber modelName procTime ts) k)) ∧
    (dget (add_metadata_to_result result sample runNumber modelName procTime ts)
        "success" = some (.bool true) ↔
      (dget result "success" = none ∨ dget result "success" = some (.bool true))) := by
  refine ⟨fun k => dget_add_metadata result sample runNumber modelName procTime ts k, ?_⟩
  rw [dget_add_metadata, dget_metadataOf_success]
  cases h : dget result "success" <;> simp [optOr]

/-- C9 counterexample: when the remote payload itself contains
`success: false`, the orchestrator still adds the pair to the in-memory
completion set right after the append — but the record appended is not a
success record, so the completion set is not a subset of the pairs with a
success record in the ledger. -/
theorem claim9_completion_not_subset_cex :
    (run_pilot_study cfgA [{ sampleA with sample_id := some "s1" }] none
      (fun _ _ _ => .response (.withJson [("success", .bool false)]))
      (fun _ => true)).finalState.completedRuns = [(.str "s1", .num 1)] ∧
    (run_pilot_study cfgA [{ sampleA with sample_id := some "s1" }] none
      (fun _ _ _ => .response (.withJson [("success", .bool false)]))
      (fun _ => true)).finalState.appendedRecords.map recordSuccess = [false] ∧
    (load_existing_results (none : Option (List Line))).1 = [] :=
  ⟨rfl, rfl, rfl⟩

/-- C9 (amended): provided every sample carries an explicit sample id and
no parsed payload redefines the `success`, `sample_id` or `run_number`
keys, every pair of the final completion set is the key of a
truthy-success record that is durably in the ledger — among the records
loaded from the file or among the records appended during the run (the
pair is added only when the append reported success); and when every
append fails, the completion set never grows beyond the loaded one. -/
theorem claim9_completion_subset_amended (cfg : RunConfig) (samples : List Sample)
    (file : Option (List Line)) (oracle : Nat → Nat → Nat → AttemptOutcome)
    (saveOracle : Nat → Bool)
    (hsid : ∀ s ∈ samples, s.sample_id.isSome = true)
    (hclean : ∀ i rn a d, oracle i rn a = .response (.withJson d) →
      dget d "success" = none ∧ dget d "sample_id" = none ∧
        dget d "run_number" = none) :
    (∀ p ∈ (run_pilot_study cfg samples file oracle saveOracle).finalState.completedRuns,
      ∃ d, (d ∈ (load_existing_results file).1 ∨
          d ∈ (run_pilot_study cfg samples file oracle
            saveOracle).finalState.appendedRecords) ∧
        recordSuccess d = true ∧ recordKey d = p) ∧
    ((∀ n, saveOracle n = false) →
      (run_pilot_study cfg samples file oracle saveOracle).finalState.completedRuns =
        (load_existing_results file).2) := by
  have hbase : LedgerInv (load_existing_results file).1
      (initState (load_existing_results file).2) := by
    intro p hp
    obtain ⟨d, hd, hs, hk⟩ := load_completed_sub_records file p hp
    exact ⟨d, Or.inl hd, hs, hk⟩
  by_cases h : (load_existing_results file).2.length = samples.length * cfg.nRuns
  · simp only [run_pilot_study, if_pos h]
    exact ⟨hbase, fun _ => rfl⟩
  · simp only [run_pilot_study, if_neg h]
    constructor
    · exact foldl_processSample_inv cfg oracle saveOracle _ samples.enum _
        (fun e he => hsid e.2 (List.snd_mem_of_mem_enum he)) hclean hbase
    · intro hsave
      exact foldl_processSample_completed_const cfg oracle saveOracle samples.enum _
        hsave

/-- C9 witness: a concrete clean run — one sample, one run, clean payload,
append succeeding — where the completion set's single pair is covered by
the appended success record, and the same run with every append failing
leaves the completion set empty. -/
theorem claim9_completion_subset_amended_witness :
    (∀ s ∈ [sampleA], s.sample_id.isSome = true) ∧
    ((∀ p ∈ (run_pilot_study cfgA [sampleA] none
        (fun _ _ _ => .response (.withJson [("is_correct", .bool true)]))
        (fun _ => true)).finalState.completedRuns,
      ∃ d, (d ∈ (load_existing_results (none : Option (List Line))).1 ∨
          d ∈ (run_pilot_study cfgA [sampleA] none
            (fun _ _ _ => .response (.withJson [("is_correct", .bool true)]))
            (fun _ => true)).finalState.appendedRecords) ∧
        recordSuccess d = true ∧ recordKey d = p) ∧
     ((∀ n, (fun (_ : Nat) => true) n = false) →
      (run_pilot_study cfgA [sampleA] none
        (fun _ _ _ => .response (.withJson [("is_correct", .bool true)]))
        (fun _ => true)).finalState.completedRuns =
        (load_existing_results (none : Option (List Line))).2)) :=
  ⟨by decide,
   claim9_completion_subset_amended cfgA [sampleA] none
     (fun _ _ _ => .response (.withJson [("is_correct", .bool true)]))
     (fun _ => true) (by decide)
     (fun i rn a d hd => by
       simp only [AttemptOutcome.response.injEq, ResponseText.withJson.injEq] at hd
       subst hd
       exact ⟨rfl, rfl, rfl⟩)⟩

end HsentKbli
